import Mathlib

/-!
Verification development for the frametap screen-capture engine.

Each definition below is a shallow embedding of one function (or one
code path) of the C++ sources, translated statement by statement:

* `src/util/color.h`            — `bgra_to_rgba` (both overloads),
                                  `checked_rgba_size`
* `include/frametap/queue.h`    — `ThreadSafeQueue`
* `src/frametap.cpp`            — `FrameTap::start` / `start_async`
* `src/platform/linux/x11/x11_backend.cpp`
                                  — `compute_capture_area`, `capture_frame`,
                                    `capture_loop`
* `src/platform/linux/wayland/wl_portal.h`
                                  — `WaylandBackend::on_process`,
                                    `WaylandBackend::start`, `portal_screenshot`
                                    path validation
* `src/platform/windows/windows_backend.cpp`
                                  — `set_region`, `pause`, `resume`, the DXGI
                                    loop's crop computation

Machine integers are modelled as `Nat` (for `size_t`, with the LP64 value
`SIZE_MAX = 2^64 - 1` made explicit where the source consults it) and `Int`
(for C `int`).  Byte buffers are `List Nat`; raw memory that a backend reads
through a pointer is modelled as a total function `Nat → Nat` from byte
offset to byte value, which is faithful to the source reading initialized
shared memory.  Fallible functions (C++ `throw CaptureError`) return
`Except String _` carrying the thrown message.
-/

namespace Frametap

/-- LP64 value of `SIZE_MAX`, the maximum of the native pointer-sized
unsigned type `size_t` in which `checked_rgba_size` computes. -/
def SIZE_MAX : Nat := 2 ^ 64 - 1

/-- Embedding of `checked_rgba_size` (src/util/color.h, second part):
returns 0 when either dimension is 0, otherwise guards both
multiplications against `size_t` overflow before performing them, throwing
`CaptureError` with the source's message; the products themselves are exact
because each is performed only after its guard passed. -/
def checked_rgba_size (width height : Nat) : Except String Nat :=
  if width = 0 ∨ height = 0 then
    .ok 0
  else if width > SIZE_MAX / height then
    .error "Image dimensions too large: overflow in pixel buffer allocation"
  else
    let pixels := width * height
    if pixels > SIZE_MAX / 4 then
      .error "Image dimensions too large: overflow in pixel buffer allocation"
    else
      .ok (pixels * 4)

/-- Embedding of the two-buffer overload
`bgra_to_rgba(const uint8_t *src, uint8_t *dst, size_t pixel_count)`
(src/util/color.h): for each of `pixel_count` pixels emit
`dst[0] = src[2], dst[1] = src[1], dst[2] = src[0], dst[3] = src[3]`.
The source buffer is a byte list; a read past its end (undefined behavior
in the C++) is modelled by stopping, which is unreachable under the
claims' well-formedness hypothesis `src.length = 4 * pixel_count`. -/
def bgra_to_rgba (src : List Nat) (pixel_count : Nat) : List Nat :=
  match pixel_count, src with
  | 0, _ => []
  | n + 1, s0 :: s1 :: s2 :: s3 :: rest =>
      s2 :: s1 :: s0 :: s3 :: bgra_to_rgba rest n
  | _ + 1, _ => []

/-- Embedding of the in-place overload
`bgra_to_rgba(uint8_t *buf, size_t pixel_count)` (src/util/color.h):
swaps bytes 0 and 2 of each of the first `pixel_count` four-byte pixels,
leaving bytes 1 and 3 and everything past `4 * pixel_count` untouched. -/
def bgra_to_rgba_inplace (buf : List Nat) (pixel_count : Nat) : List Nat :=
  match pixel_count, buf with
  | 0, buf => buf
  | n + 1, b0 :: b1 :: b2 :: b3 :: rest =>
      b2 :: b1 :: b0 :: b3 :: bgra_to_rgba_inplace rest n
  | _ + 1, buf => buf

/-- One pixel of the src→dst conversion: the channel permutation swapping
bytes 0 and 2 and fixing bytes 1 and 3 (identity on ill-formed pixels,
which the claims exclude). -/
def pixel_swap : List Nat → List Nat
  | [s0, s1, s2, s3] => [s2, s1, s0, s3]
  | p => p

/-! ## Thread-safe frame queue (include/frametap/queue.h)

The queue's observable state is the deque contents plus the closed flag;
each operation is the state transformation the C++ performs under
`mutex_`.  `pop()` blocks until `!deque_.empty() || closed_`; `pop_ready`
is that wait predicate, and `pop` below is the value/state produced once
it holds (after `close()` it always holds, which is the regime the claims
are about). -/

structure ThreadSafeQueue (T : Type) where
  deque : List T
  closed : Bool
deriving DecidableEq

namespace ThreadSafeQueue

/-- `push(value)`: enqueue at the tail unless closed; if closed, the value
is discarded and the state is unchanged. -/
def push (q : ThreadSafeQueue T) (value : T) : ThreadSafeQueue T :=
  if q.closed then q else ⟨q.deque ++ [value], q.closed⟩

/-- The predicate `pop()` waits on: `!deque_.empty() || closed_`. -/
def pop_ready (q : ThreadSafeQueue T) : Bool :=
  !q.deque.isEmpty || q.closed

/-- `pop()` once its wait predicate holds: the default-constructed
sentinel `T{}` on an empty (hence closed) queue, otherwise the head. -/
def pop [Inhabited T] (q : ThreadSafeQueue T) : T × ThreadSafeQueue T :=
  match q.deque with
  | [] => (default, q)
  | v :: rest => (v, ⟨rest, q.closed⟩)

/-- `try_pop()`: non-blocking; `std::nullopt` when empty. -/
def try_pop (q : ThreadSafeQueue T) : Option T × ThreadSafeQueue T :=
  match q.deque with
  | [] => (none, q)
  | v :: rest => (some v, ⟨rest, q.closed⟩)

/-- `close()`: set the closed flag (and notify all waiters). -/
def close (q : ThreadSafeQueue T) : ThreadSafeQueue T :=
  ⟨q.deque, true⟩

end ThreadSafeQueue

/-! ## Façade start (src/frametap.cpp) -/

/-- Observable state of a `FrameTap` instance: whether `on_frame`
installed a callback, and the `started` flag of `FrameTap::Impl`. -/
structure FrameTapState where
  hasCallback : Bool
  started : Bool
deriving DecidableEq

/-- Calls the façade forwards to its backend. -/
inductive BackendCall
  | start
  | stop
deriving DecidableEq

/-- Embedding of `FrameTap::start` (src/frametap.cpp:57-62): if no
callback is installed, throw `CaptureError("No frame callback set")`
before touching the backend; otherwise forward `start` to the backend and
set `started`.  The result carries the new state and the backend calls
made. -/
def FrameTapState.start (st : FrameTapState) :
    Except String (FrameTapState × List BackendCall) :=
  if !st.hasCallback then
    .error "No frame callback set"
  else
    .ok ({ st with started := true }, [BackendCall.start])

/-- Embedding of `FrameTap::start_async` (src/frametap.cpp:64-69); its
body is identical to `FrameTap::start`. -/
def FrameTapState.start_async (st : FrameTapState) :
    Except String (FrameTapState × List BackendCall) :=
  if !st.hasCallback then
    .error "No frame callback set"
  else
    .ok ({ st with started := true }, [BackendCall.start])

/-! ## Images, rectangles and the shared clamp block -/

/-- `frametap::ImageData`: pixel byte vector plus dimensions.  The C++
defaults (`data` empty, `width = height = 0`) are what `return {}`
produces. -/
structure ImageData where
  data : List Nat
  width : Nat
  height : Nat
deriving DecidableEq

/-- The default-constructed `ImageData{}`. -/
def ImageData.empty : ImageData := ⟨[], 0, 0⟩

/-- `frametap::Rect` restricted to integer-valued rectangles.  The C++
fields are `double` and every consumer truncates them with
`static_cast<int>`; on integer values that cast is exact, so the claims
(stated over pixel rectangles) are faithfully covered. -/
structure RectZ where
  x : Int
  y : Int
  width : Int
  height : Int
deriving DecidableEq

/-- The clamp block shared verbatim by the X11 backend
(x11_backend.cpp:113-129), the Wayland per-frame crop
(wl_portal.h:736-744) and the Windows DXGI crop
(windows_backend.cpp:262-268): a negative origin shrinks the extent by
the excess and resets the origin to zero, then the extent is clamped
against the source bound. -/
def clamp_region (rx ry rw rh sw sh : Int) : Int × Int × Int × Int :=
  let p := if rx < 0 then (0, rw + rx) else (rx, rw)
  let q := if ry < 0 then (0, rh + ry) else (ry, rh)
  let w2 := if p.1 + p.2 > sw then sw - p.1 else p.2
  let h2 := if q.1 + q.2 > sh then sh - q.1 else q.2
  (p.1, q.1, w2, h2)

/-- The per-row alpha pass both X11 conversion branches run for display
depths ≤ 24 with 4-byte pixels (`dst[x*4+3] = 0xFF` for each pixel of the
row): force every fourth byte of the row to 255. -/
def force_alpha (row : List Nat) : List Nat :=
  row.mapIdx fun i b => if i % 4 = 3 then 255 else b

/-! ## X11 backend (src/platform/linux/x11/x11_backend.cpp) -/

namespace X11

/-- The fields of the server-side `XImage` that `capture_frame` consults,
with the image's pixel bytes as a total function from byte offset to byte
value (the C++ reads them through `shm_image_->data` resp. `img->data`). -/
structure XImg where
  lsb : Bool
  bits_per_pixel : Nat
  depth : Nat
  bytes_per_line : Nat
  mem : Nat → Nat

/-- One row of the conversion loop in `X11Backend::capture_frame`
(x11_backend.cpp:267-282; the non-SHM fallback at 296-311 is the same
loop over `img` instead of `shm_image_`): read the row's first `4*w`
source bytes, convert with `bgra_to_rgba` when the server image is
little-endian 4-byte pixels and copy verbatim otherwise, then force the
alpha byte for depths ≤ 24.  The row is written to
`result.data + y*w*4`, so the rows tile the result buffer exactly. -/
def convert_row (img : XImg) (base w : Nat) : List Nat :=
  let src := (List.range (4 * w)).map fun i => img.mem (base + i)
  let converted :=
    if img.lsb ∧ img.bits_per_pixel / 8 = 4 then bgra_to_rgba src w else src
  if img.depth ≤ 24 ∧ img.bits_per_pixel / 8 = 4 then force_alpha converted
  else converted

/-- Embedding of `X11Backend::capture_frame` (x11_backend.cpp:239-316)
for root capture.  `cw, ch` are the mutex-protected capture dimensions
copied at entry; `get_ok` models `XShmGetImage` / `XGetImage` returning
nonzero; `xerr` is the thread-local `g_x11_error_code` observed after
`XSync`.  A zero-or-negative area and every skipped frame produce the
default-constructed `ImageData{}`; otherwise the buffer is sized by
`checked_rgba_size` (whose `CaptureError` propagates) and filled row by
row. -/
def capture_frame (cw ch : Int) (get_ok : Bool) (xerr : Nat) (img : XImg) :
    Except String ImageData :=
  if cw ≤ 0 ∨ ch ≤ 0 then
    .ok ImageData.empty
  else
    let w := cw.toNat
    let h := ch.toNat
    match checked_rgba_size w h with
    | .error e => .error e
    | .ok _ =>
        if ¬get_ok ∨ xerr ≠ 0 then
          .ok ImageData.empty
        else
          .ok ⟨((List.range h).map fun y =>
                  convert_row img (y * img.bytes_per_line) w).flatten,
               w, h⟩

/-- Embedding of `X11Backend::compute_capture_area`
(x11_backend.cpp:97-129) on the root-capture path: a region with
positive width and height is taken as the capture area, otherwise the
full display is; then the shared clamp block runs against the display
dimensions `sw × sh`. -/
def compute_capture_area (region : RectZ) (sw sh : Int) :
    Int × Int × Int × Int :=
  if region.width > 0 ∧ region.height > 0 then
    clamp_region region.x region.y region.width region.height sw sh
  else
    clamp_region 0 0 sw sh sw sh

/-- One observable iteration outcome of `X11Backend::capture_loop`
(x11_backend.cpp:318-350), at the monotonic-clock value the iteration
reads: a paused tick (which resets `last_time` to now), an iteration
whose `capture_frame` came back empty (skipped, `last_time` untouched),
or a delivered frame at time `t`. -/
inductive LoopTick
  | pausedAt (t : ℚ)
  | emptyTick
  | frameAt (t : ℚ)

/-- The inter-frame durations `capture_loop` hands to the callback, as a
function of `last_time` (initialized to `clock::now()` at loop entry) and
the iteration outcomes: a delivered frame at `t` carries `t - last_time`
and resets `last_time` to `t`; a paused tick resets `last_time`; a
skipped frame leaves it alone. -/
def loop_durations (last : ℚ) : List LoopTick → List ℚ
  | [] => []
  | .pausedAt t :: ticks => loop_durations t ticks
  | .emptyTick :: ticks => loop_durations last ticks
  | .frameAt t :: ticks => (t - last) :: loop_durations t ticks

end X11

/-! ## Wayland backend (src/platform/linux/wayland/wl_portal.h) -/

namespace Wayland

/-- The negotiated SPA video formats `on_process` switches on; `other`
is any value outside the four accepted ones (the `default:` branch). -/
inductive SpaFormat
  | BGRx
  | BGRA
  | RGBx
  | RGBA
  | other
deriving DecidableEq

/-- The events `on_process` performs against the PipeWire stream:
obtaining a buffer with `pw_stream_dequeue_buffer` and returning it with
`pw_stream_queue_buffer`. -/
inductive PwEvent
  | dequeue
  | queue
deriving DecidableEq

/-- The state `WaylandBackend::on_process` reads: the atomic pause flag,
whether `pw_stream_dequeue_buffer` yields a buffer, whether that buffer's
`datas[0].data` is non-null, the chunk stride, the negotiated format and
dimensions stored by `on_param_changed`, the buffer bytes as a total
function from offset to byte value, the region snapshot taken under
`state_mutex_`, and whether a frame callback is installed. -/
structure WlState where
  paused : Bool
  buf_some : Bool
  data_valid : Bool
  stride : Nat
  frame_width : Int
  frame_height : Int
  fmt : SpaFormat
  mem : Nat → Nat
  region : RectZ
  callback_set : Bool

/-- One row of the conversion loop in `on_process` (wl_portal.h:698-721):
read the row's first `4*w` bytes at `y * stride`, convert BGRx/BGRA (and
the unknown-format `default:` branch) with `bgra_to_rgba`, copy RGBA
verbatim, and copy RGBx verbatim then force every alpha byte to 255. -/
def wl_row (fmt : SpaFormat) (mem : Nat → Nat) (base w : Nat) : List Nat :=
  let src := (List.range (4 * w)).map fun i => mem (base + i)
  match fmt with
  | .BGRx | .BGRA | .other => bgra_to_rgba src w
  | .RGBA => src
  | .RGBx => force_alpha src

/-- The region-crop block of `on_process` (wl_portal.h:723-761) applied
to the converted `w × h` image bytes `data`: a region with positive width
and height is clamped by the shared clamp block against the frame bounds,
and only when the clamped rectangle is still valid (`rx, ry ≥ 0`,
`rw, rh > 0`) and differs from the full frame is the image replaced by
the cropped copy (each cropped row is the `rw*4`-byte slice starting at
`(ry+cy)*w*4 + rx*4`); otherwise the image passes through unchanged. -/
def apply_crop (region : RectZ) (w h : Nat) (data : List Nat) :
    Except String ImageData :=
  if region.width > 0 ∧ region.height > 0 then
    match clamp_region region.x region.y region.width region.height w h with
    | (rx, ry, rw, rh) =>
        if 0 ≤ rx ∧ 0 ≤ ry ∧ 0 < rw ∧ 0 < rh ∧
            (rw ≠ (w : Int) ∨ rh ≠ (h : Int) ∨ rx ≠ 0 ∨ ry ≠ 0) then
          match checked_rgba_size rw.toNat rh.toNat with
          | .error e => .error e
          | .ok _ =>
              .ok ⟨((List.range rh.toNat).map fun cy =>
                      ((data.drop ((ry.toNat + cy) * w * 4 + rx.toNat * 4)).take
                        (rw.toNat * 4))).flatten,
                   rw.toNat, rh.toNat⟩
        else .ok ⟨data, w, h⟩
  else .ok ⟨data, w, h⟩

/-- Embedding of `WaylandBackend::on_process` (wl_portal.h:667-778).
Faithful control flow: when the pause flag is set the handler returns at
once — before any buffer is dequeued; a null buffer ends the handler; a
buffer with a null data pointer, or non-positive negotiated dimensions,
is re-queued without conversion; otherwise the image is converted row by
row (allocation guarded by `checked_rgba_size`), cropped per the region
snapshot, the buffer is re-queued, and the frame is delivered iff a
callback is installed.  The result carries the stream events in order and
the image delivered to the callback, if any. -/
def on_process (st : WlState) :
    Except String (List PwEvent × Option ImageData) :=
  if st.paused then
    .ok ([], none)
  else if ¬st.buf_some then
    .ok ([], none)
  else if ¬st.data_valid then
    .ok ([.dequeue, .queue], none)
  else if st.frame_width ≤ 0 ∨ st.frame_height ≤ 0 then
    .ok ([.dequeue, .queue], none)
  else
    let w := st.frame_width.toNat
    let h := st.frame_height.toNat
    match checked_rgba_size w h with
    | .error e => .error e
    | .ok _ =>
        let full := ((List.range h).map fun y =>
            wl_row st.fmt st.mem (y * st.stride) w).flatten
        match apply_crop st.region w h full with
        | .error e => .error e
        | .ok image =>
            .ok ([.dequeue, .queue],
                 if st.callback_set then some image else none)

/-- The inter-frame durations the Wayland session delivers.
`WaylandBackend::start` (wl_portal.h:968-987) stores
`last_frame_time_ = steady_clock::now()` before the stream runs, and each
`on_process` delivery at time `t` carries `t - last_frame_time_` and
stores `t` (wl_portal.h:765-777); `resume` also restores the baseline.
Given the session's start time and the delivery times, these are the
`duration_ms` values handed to the callback. -/
def session_durations (last : ℚ) : List ℚ → List ℚ
  | [] => []
  | t :: ts => (t - last) :: session_durations t ts

end Wayland

/-! ## Windows backend (src/platform/windows/windows_backend.cpp) -/

namespace Windows

/-- Synchronization and store events a Windows backend method performs:
acquiring/releasing the instance's `mutex_`, storing `region_`, storing
`paused_`. -/
inductive WinEvent
  | lockAcquire
  | lockRelease
  | storeRegion
  | storePaused (b : Bool)
deriving DecidableEq

/-- The mutable shared cells of `WindowsBackend`: the current crop
region and the pause flag. -/
structure WinState where
  region : RectZ
  paused : Bool
deriving DecidableEq

/-- Embedding of `WindowsBackend::set_region`
(windows_backend.cpp:186): `region_ = region;` — a single plain store,
with the sequence of synchronization/store events it performs. -/
def set_region (st : WinState) (r : RectZ) : WinState × List WinEvent :=
  ({ st with region := r }, [.storeRegion])

/-- Embedding of `WindowsBackend::pause` (windows_backend.cpp:171-174):
`std::lock_guard lock(mutex_); paused_ = true;`. -/
def pause (st : WinState) : WinState × List WinEvent :=
  ({ st with paused := true },
   [.lockAcquire, .storePaused true, .lockRelease])

/-- Embedding of `WindowsBackend::resume` (windows_backend.cpp:176-179). -/
def resume (st : WinState) : WinState × List WinEvent :=
  ({ st with paused := false },
   [.lockAcquire, .storePaused false, .lockRelease])

/-- The crop rectangle one DXGI loop iteration computes from the stored
region (windows_backend.cpp:253-269): the full desktop when the region is
unset, otherwise the shared clamp block against the desktop bounds.  The
iteration reads `region_` directly, so the next produced frame uses
whatever `set_region` last stored. -/
def frame_crop (st : WinState) (dw dh : Int) : Int × Int × Int × Int :=
  if st.region.width > 0 ∧ st.region.height > 0 then
    clamp_region st.region.x st.region.y st.region.width st.region.height
      dw dh
  else
    (0, 0, dw, dh)

end Windows

/-! ## Portal screenshot path validation (wl_portal.h:460-472) -/

/-- The two `CaptureError` classes `portal_screenshot`'s validation
throws: "returned invalid path" (empty or not absolute) and "returned
suspicious path" (a traversal segment). -/
inductive PathError
  | invalid
  | suspicious
deriving DecidableEq

/-- `needle.isPrefixOf`-style comparison used by `has_sub`. -/
def leads : List Char → List Char → Bool
  | [], _ => true
  | _ :: _, [] => false
  | a :: as, b :: bs => a == b && leads as bs

/-- `std::string::find(needle) != npos`: the needle occurs as a
contiguous substring of the haystack. -/
def has_sub (needle hay : List Char) : Bool :=
  (List.range (hay.length + 1)).any fun i => leads needle (hay.drop i)

/-- Embedding of the URI-to-path validation at the end of
`portal_screenshot` (wl_portal.h:460-472): strip one leading "file://"
if present, then reject a path that is empty or does not begin with
'/' as invalid, and a path containing "/../" or "/./" as suspicious;
otherwise return the path. -/
def portal_screenshot_path (uri : List Char) : Except PathError (List Char) :=
  let pfx := "file://".toList
  let path := if uri.take pfx.length = pfx then uri.drop pfx.length else uri
  if path = [] ∨ path.head? ≠ some '/' then
    .error .invalid
  else if has_sub "/../".toList path ∨ has_sub "/./".toList path then
    .error .suspicious
  else
    .ok path

/-! ## Concrete instances used by witnesses and counterexamples -/

/-- A concrete server image: little-endian 32-bit pixels, depth 24,
16 bytes per line, every byte 7. -/
def ximg0 : X11.XImg := ⟨true, 32, 24, 16, fun _ => 7⟩

/-- The image `X11.capture_frame 2 2 true 0 ximg0` produces: two rows of
two pixels, channels swapped (all 7s stay 7) and alpha forced to 255. -/
def img0 : ImageData :=
  ⟨[7, 7, 7, 255, 7, 7, 7, 255, 7, 7, 7, 255, 7, 7, 7, 255], 2, 2⟩

/-- A Wayland handler state with the pause flag set. -/
def wl_paused_state : Wayland.WlState :=
  ⟨true, true, true, 16, 4, 4, .RGBA, fun _ => 0, ⟨0, 0, 0, 0⟩, true⟩

/-- A Wayland handler state whose region (10,0,2×2) lies fully to the
right of the negotiated 4×4 frame. -/
def wl_offscreen_state : Wayland.WlState :=
  ⟨false, true, true, 16, 4, 4, .RGBA, fun _ => 0, ⟨10, 0, 2, 2⟩, true⟩

/-! ## Helper lemmas -/

theorem bgra_to_rgba_length (src : List Nat) (n : Nat)
    (h : src.length = 4 * n) : (bgra_to_rgba src n).length = 4 * n := by
  induction n generalizing src with
  | zero => simp [bgra_to_rgba]
  | succ m ih =>
      match src, h with
      | s0 :: s1 :: s2 :: s3 :: rest, h =>
          simp only [bgra_to_rgba, List.length_cons]
          have hr : rest.length = 4 * m := by
            simp only [List.length_cons] at h
            omega
          rw [ih rest hr]
          omega

theorem force_alpha_length (l : List Nat) :
    (force_alpha l).length = l.length := by
  simp [force_alpha]

theorem flatten_const_length (L : List (List Nat)) (k : Nat)
    (h : ∀ r ∈ L, r.length = k) : L.flatten.length = L.length * k := by
  induction L with
  | nil => simp
  | cons r L ih =>
      simp only [List.flatten_cons, List.length_append, List.length_cons]
      rw [h r (List.mem_cons_self r L), ih fun s hs => h s (List.mem_cons_of_mem r hs)]
      ring

theorem convert_row_length (img : X11.XImg) (base w : Nat) :
    (X11.convert_row img base w).length = 4 * w := by
  have hs : ((List.range (4 * w)).map fun i => img.mem (base + i)).length
      = 4 * w := by simp
  simp only [X11.convert_row]
  split
  · split
    · rw [force_alpha_length, bgra_to_rgba_length _ _ hs]
    · rw [force_alpha_length, hs]
  · split
    · exact bgra_to_rgba_length _ _ hs
    · exact hs

theorem wl_row_length (fmt : Wayland.SpaFormat) (mem : Nat → Nat)
    (base w : Nat) : (Wayland.wl_row fmt mem base w).length = 4 * w := by
  have hs : ((List.range (4 * w)).map fun i => mem (base + i)).length
      = 4 * w := by simp
  cases fmt <;>
    simp only [Wayland.wl_row] <;>
    first
      | exact bgra_to_rgba_length _ _ hs
      | exact hs
      | (rw [force_alpha_length]; exact hs)

/-- Closed form of the shared clamp block: clamped origin is the origin
clamped to 0, clamped extent is the width of the intersection of
`[origin, origin + extent)` with `[0, bound)`. -/
theorem clamp_region_eq (rx ry rw rh sw sh : Int) :
    clamp_region rx ry rw rh sw sh =
      (max rx 0, max ry 0,
       min (rx + rw) sw - max rx 0, min (ry + rh) sh - max ry 0) := by
  simp only [clamp_region]
  split_ifs <;> simp only [Prod.mk.injEq] <;>
    exact ⟨by omega, by omega, by omega, by omega⟩

theorem drop_take_length (data : List Nat) (off k : Nat)
    (h : off + k ≤ data.length) :
    ((data.drop off).take k).length = k := by
  simp only [List.length_take, List.length_drop]
  omega

theorem wl_full_length (fmt : Wayland.SpaFormat) (mem : Nat → Nat)
    (stride w h : Nat) :
    (((List.range h).map fun y =>
        Wayland.wl_row fmt mem (y * stride) w).flatten).length
      = w * h * 4 := by
  rw [flatten_const_length _ (4 * w)]
  · simp only [List.length_map, List.length_range]
    ring
  · intro r hr
    obtain ⟨y, _, rfl⟩ := List.mem_map.mp hr
    exact wl_row_length fmt mem (y * stride) w

theorem x11_full_length (img : X11.XImg) (w h : Nat) :
    (((List.range h).map fun y =>
        X11.convert_row img (y * img.bytes_per_line) w).flatten).length
      = w * h * 4 := by
  rw [flatten_const_length _ (4 * w)]
  · simp only [List.length_map, List.length_range]
    ring
  · intro r hr
    obtain ⟨y, _, rfl⟩ := List.mem_map.mp hr
    exact convert_row_length img (y * img.bytes_per_line) w

theorem crop_rows_length (data : List Nat) (w h rxn ryn rwn rhn : Nat)
    (hd : data.length = w * h * 4)
    (hx : rxn + rwn ≤ w) (hy : ryn + rhn ≤ h) :
    (((List.range rhn).map fun cy =>
        ((data.drop ((ryn + cy) * w * 4 + rxn * 4)).take
          (rwn * 4))).flatten).length = rwn * rhn * 4 := by
  rw [flatten_const_length _ (rwn * 4)]
  · simp only [List.length_map, List.length_range]
    ring
  · intro r hr
    obtain ⟨cy, hcy, rfl⟩ := List.mem_map.mp hr
    have hcy2 : cy < rhn := List.mem_range.mp hcy
    apply drop_take_length
    rw [hd]
    calc (ryn + cy) * w * 4 + rxn * 4 + rwn * 4
        = ((ryn + cy) * w + (rxn + rwn)) * 4 := by ring
      _ ≤ ((ryn + cy) * w + w) * 4 := by
          have := Nat.add_le_add_left hx ((ryn + cy) * w)
          omega
      _ = ((ryn + cy + 1) * w) * 4 := by ring
      _ ≤ (h * w) * 4 := by
          have h1 : ryn + cy + 1 ≤ h := by omega
          have h2 : (ryn + cy + 1) * w ≤ h * w :=
            Nat.mul_le_mul_right w h1
          omega
      _ = w * h * 4 := by ring

/-- Every `ImageData` the Wayland crop block yields satisfies the buffer
invariant, provided the incoming image does. -/
theorem apply_crop_spec (region : RectZ) (w h : Nat) (data : List Nat)
    (hd : data.length = w * h * 4) (img : ImageData)
    (hc : Wayland.apply_crop region w h data = .ok img) :
    img.data.length = img.width * img.height * 4 ∧
    ((img.width = 0 ∨ img.height = 0) → img.data = []) := by
  have pass : (⟨data, w, h⟩ : ImageData).data.length
      = (⟨data, w, h⟩ : ImageData).width * (⟨data, w, h⟩ : ImageData).height * 4
      ∧ (((⟨data, w, h⟩ : ImageData).width = 0 ∨
          (⟨data, w, h⟩ : ImageData).height = 0) →
          (⟨data, w, h⟩ : ImageData).data = []) := by
    refine ⟨hd, fun h0 => ?_⟩
    apply List.eq_nil_of_length_eq_zero
    rw [hd]
    rcases h0 with h0 | h0 <;> simp_all
  unfold Wayland.apply_crop at hc
  split at hc
  case isFalse =>
    cases hc
    exact pass
  case isTrue hpos =>
    rw [clamp_region_eq] at hc
    simp only at hc
    split at hc
    case isFalse =>
      cases hc
      exact pass
    case isTrue hcond =>
      split at hc
      case h_1 => cases hc
      case h_2 =>
        cases hc
        obtain ⟨hx0, hy0, hw0, hh0, _⟩ := hcond
        constructor
        · apply crop_rows_length data w h _ _ _ _ hd
          · omega
          · omega
        · intro h0
          rcases h0 with h0 | h0 <;> simp only at h0 <;> omega

/-! ## Claim theorems -/

/-- C2: `checked_rgba_size` returns 0 when either dimension is zero,
otherwise returns `width * height * 4` computed in `size_t`, and throws a
`CaptureError` whose message mentions "pixel buffer allocation" exactly
when `width * height` or `(width * height) * 4` would exceed `SIZE_MAX`;
in particular `width = SIZE_MAX / 4 + 1` with `height = 1` throws such an
error. -/
theorem C2_checked_rgba_size :
    (∀ w h : Nat, w = 0 ∨ h = 0 → checked_rgba_size w h = .ok 0)
    ∧ (∀ w h : Nat, 0 < w → 0 < h → w * h * 4 ≤ SIZE_MAX →
        checked_rgba_size w h = .ok (w * h * 4))
    ∧ (∀ w h : Nat, 0 < w → 0 < h →
        (SIZE_MAX < w * h ∨ SIZE_MAX < w * h * 4) →
        ∃ msg, checked_rgba_size w h = .error msg ∧
          has_sub "pixel buffer allocation".toList msg.toList = true)
    ∧ (∃ msg, checked_rgba_size (SIZE_MAX / 4 + 1) 1 = .error msg ∧
        has_sub "pixel buffer allocation".toList msg.toList = true) := by
  have key : ∀ w h : Nat, 0 < w → 0 < h →
      (SIZE_MAX < w * h ∨ SIZE_MAX < w * h * 4) →
      ∃ msg, checked_rgba_size w h = .error msg ∧
        has_sub "pixel buffer allocation".toList msg.toList = true := by
    intro w h hw hh hov
    unfold checked_rgba_size
    rw [if_neg (by omega)]
    by_cases h1 : w > SIZE_MAX / h
    · rw [if_pos h1]
      exact ⟨_, rfl, by decide⟩
    · have hwh : w * h ≤ SIZE_MAX := by
        have := (Nat.le_div_iff_mul_le hh).mp (Nat.le_of_not_lt h1)
        exact this
      have h4 : SIZE_MAX < w * h * 4 := by
        rcases hov with h | h
        · omega
        · exact h
      rw [if_neg h1]
      simp only
      rw [if_pos (by
        have := (Nat.div_lt_iff_lt_mul (by norm_num : (0:Nat) < 4)).mpr h4
        exact this)]
      exact ⟨_, rfl, by decide⟩
  refine ⟨?_, ?_, key, ?_⟩
  · intro w h hwh
    unfold checked_rgba_size
    rw [if_pos hwh]
  · intro w h hw hh hle
    have hwh : w * h ≤ SIZE_MAX := by
      calc w * h ≤ w * h * 4 := Nat.le_mul_of_pos_right _ (by norm_num)
        _ ≤ SIZE_MAX := hle
    unfold checked_rgba_size
    rw [if_neg (by omega)]
    rw [if_neg (by
      intro hgt
      exact absurd hwh (by
        have := (Nat.div_lt_iff_lt_mul hh).mp hgt
        omega))]
    simp only
    rw [if_neg (by
      intro hgt
      have := (Nat.div_lt_iff_lt_mul (by norm_num : (0:Nat) < 4)).mp hgt
      omega)]
  · refine key (SIZE_MAX / 4 + 1) 1 (by omega) (by omega) (Or.inr ?_)
    have : SIZE_MAX / 4 * 4 + 4 > SIZE_MAX := by omega
    calc SIZE_MAX < (SIZE_MAX / 4 + 1) * 4 := by omega
      _ = (SIZE_MAX / 4 + 1) * 1 * 4 := by ring

/-- C2 witness: the theorem instantiated at concrete inputs — a 2×3
image yields 24 bytes, a zero dimension yields 0. -/
theorem C2_checked_rgba_size_witness :
    checked_rgba_size 2 3 = .ok 24 ∧ checked_rgba_size 0 5 = .ok 0 :=
  ⟨C2_checked_rgba_size.2.1 2 3 (by norm_num) (by norm_num)
      (by unfold SIZE_MAX; norm_num),
   C2_checked_rgba_size.1 0 5 (Or.inl rfl)⟩

/-- C8: both conversion overloads implement the permutation swapping
bytes 0 and 2 and fixing bytes 1 and 3 of each four-byte pixel: the
src→dst variant maps one pixel `[s0,s1,s2,s3]` to `[s2,s1,s0,s3]`, a
multi-pixel call is the concatenation of single-pixel calls (stated both
as a homomorphism over a pixel decomposition and over an append split),
the in-place variant maps `[100,150,200,255]` with count 1 to
`[200,150,100,255]`, and count 0 is a no-op. -/
theorem C8_bgra_to_rgba :
    (∀ s0 s1 s2 s3 : Nat, bgra_to_rgba [s0, s1, s2, s3] 1 = [s2, s1, s0, s3])
    ∧ (∀ ps : List (List Nat), (∀ p ∈ ps, p.length = 4) →
        bgra_to_rgba ps.flatten ps.length = (ps.map pixel_swap).flatten)
    ∧ (∀ (src₁ src₂ : List Nat) (n₁ n₂ : Nat), src₁.length = 4 * n₁ →
        bgra_to_rgba (src₁ ++ src₂) (n₁ + n₂) =
          bgra_to_rgba src₁ n₁ ++ bgra_to_rgba src₂ n₂)
    ∧ (∀ (b0 b1 b2 b3 : Nat) (rest : List Nat),
        bgra_to_rgba_inplace (b0 :: b1 :: b2 :: b3 :: rest) 1 =
          b2 :: b1 :: b0 :: b3 :: rest)
    ∧ (∀ buf : List Nat, bgra_to_rgba_inplace buf 0 = buf)
    ∧ bgra_to_rgba_inplace [100, 150, 200, 255] 1 = [200, 150, 100, 255] := by
  refine ⟨fun s0 s1 s2 s3 => by simp [bgra_to_rgba], ?_, ?_,
    fun b0 b1 b2 b3 rest => by simp [bgra_to_rgba_inplace],
    fun buf => by simp [bgra_to_rgba_inplace], by rfl⟩
  · intro ps hps
    induction ps with
    | nil => simp [bgra_to_rgba]
    | cons p ps ih =>
        have hp : p.length = 4 := hps p (List.mem_cons_self p ps)
        have ih2 := ih fun q hq => hps q (List.mem_cons_of_mem _ hq)
        match p, hp with
        | [a, b, c, d], _ =>
            simp only [List.flatten_cons, List.map_cons, List.length_cons,
              List.cons_append, List.nil_append, pixel_swap, bgra_to_rgba]
            simp [ih2]
  · intro src₁ src₂ n₁ n₂ hlen
    induction n₁ generalizing src₁ with
    | zero =>
        have : src₁ = [] := List.eq_nil_of_length_eq_zero (by omega)
        subst this
        simp [bgra_to_rgba]
    | succ m ih =>
        match src₁, hlen with
        | s0 :: s1 :: s2 :: s3 :: rest, hlen =>
            have hr : rest.length = 4 * m := by
              simp only [List.length_cons] at hlen; omega
            have hsucc : m + 1 + n₂ = (m + n₂) + 1 := by omega
            rw [hsucc]
            simp only [List.cons_append, bgra_to_rgba]
            simp [ih rest hr]

/-- C8 witness: the append-homomorphism conjunct applied to two concrete
pixels, with its length hypothesis discharged by evaluation. -/
theorem C8_bgra_to_rgba_witness :
    bgra_to_rgba ([100, 150, 200, 255] ++ [1, 2, 3, 4]) (1 + 1) =
      bgra_to_rgba [100, 150, 200, 255] 1 ++ bgra_to_rgba [1, 2, 3, 4] 1 :=
  C8_bgra_to_rgba.2.2.1 [100, 150, 200, 255] [1, 2, 3, 4] 1 1 (by decide)

/-- C6: after `close()`, the closed flag is set and every waiter's wait
predicate holds; a subsequent `push` leaves the queue unchanged;
`pop` returns the head of a non-empty closed queue in FIFO order and the
default-constructed sentinel on the drained queue; `try_pop` on an empty
queue returns the absent marker; and concretely, `close` then `push 2`
then `try_pop` yields the absent marker. -/
theorem C6_queue_close :
    (∀ (T : Type) (q : ThreadSafeQueue T),
      q.close.closed = true ∧ q.close.pop_ready = true)
    ∧ (∀ (T : Type) (q : ThreadSafeQueue T) (v : T), q.close.push v = q.close)
    ∧ (∀ (T : Type) (_ : Inhabited T) (v : T) (rest : List T),
        ThreadSafeQueue.pop ⟨v :: rest, true⟩ =
          (v, (⟨rest, true⟩ : ThreadSafeQueue T)))
    ∧ (∀ (T : Type) (inst : Inhabited T),
        ThreadSafeQueue.pop (⟨[], true⟩ : ThreadSafeQueue T) =
          (inst.default, ⟨[], true⟩))
    ∧ (∀ (T : Type) (c : Bool),
        ThreadSafeQueue.try_pop (⟨[], c⟩ : ThreadSafeQueue T) =
          (none, ⟨[], c⟩))
    ∧ (ThreadSafeQueue.try_pop
        ((ThreadSafeQueue.close ⟨[], false⟩).push (2 : Nat))).1 = none := by
  refine ⟨fun T q => ⟨rfl, by simp [ThreadSafeQueue.pop_ready,
      ThreadSafeQueue.close]⟩,
    fun T q v => by simp [ThreadSafeQueue.push, ThreadSafeQueue.close],
    fun T _ v rest => rfl,
    fun T inst => rfl,
    fun T c => rfl,
    rfl⟩

/-- C7: with no frame callback installed, both `FrameTap::start` and
`FrameTap::start_async` throw `CaptureError("No frame callback set")`,
making no call into the backend (so the backend's streaming state stays
Idle); conversely a successful `start` presupposes an installed
callback. -/
theorem C7_start_requires_callback :
    (∀ st : FrameTapState, st.hasCallback = false →
      st.start = .error "No frame callback set" ∧
      st.start_async = .error "No frame callback set")
    ∧ (∀ (st : FrameTapState) (out : FrameTapState × List BackendCall),
        st.start = .ok out → st.hasCallback = true) := by
  constructor
  · intro st h
    constructor <;> simp [FrameTapState.start, FrameTapState.start_async, h]
  · intro st out h
    by_contra hc
    simp only [Bool.not_eq_true] at hc
    simp [FrameTapState.start, hc] at h

/-- C7 witness: the theorem applied to the freshly-constructed façade
state (no callback, not started). -/
theorem C7_start_requires_callback_witness :
    FrameTapState.start ⟨false, false⟩ = .error "No frame callback set" ∧
    FrameTapState.start_async ⟨false, false⟩ =
      .error "No frame callback set" :=
  C7_start_requires_callback.1 ⟨false, false⟩ rfl

/-- C10: the portal screenshot path validation rejects a URI exactly
when the decoded path — the URI with one leading "file://" stripped when
present — is empty, does not begin with '/', or contains "/../" or
"/./"; consequently the URI "file:///tmp/.." (whose parent-directory
segment has no trailing slash) passes validation and its path is
returned. -/
theorem C10_portal_path_validation :
    (∀ uri path : List Char,
      path = (if uri.take ("file://".toList.length) = "file://".toList
              then uri.drop ("file://".toList.length) else uri) →
      ((∃ e, portal_screenshot_path uri = .error e) ↔
        (path = [] ∨ path.head? ≠ some '/' ∨
         has_sub "/../".toList path = true ∨ has_sub "/./".toList path = true)))
    ∧ portal_screenshot_path "file:///tmp/..".toList =
        .ok "/tmp/..".toList := by
  constructor
  · intro uri path hp
    have hval : portal_screenshot_path uri =
        (if path = [] ∨ path.head? ≠ some '/' then .error .invalid
         else if has_sub "/../".toList path = true ∨
             has_sub "/./".toList path = true then .error .suspicious
         else .ok path) := by
      simp only [portal_screenshot_path]
      rw [← hp]
    rw [hval]
    split_ifs with h1 h2
    · exact ⟨fun _ => by tauto, fun _ => ⟨.invalid, rfl⟩⟩
    · refine ⟨fun _ => ?_, fun _ => ⟨.suspicious, rfl⟩⟩
      rcases h2 with h | h
      · exact Or.inr (Or.inr (Or.inl h))
      · exact Or.inr (Or.inr (Or.inr h))
    · refine ⟨fun he => ?_, fun h => ?_⟩
      · obtain ⟨e, he⟩ := he
        simp at he
      · rcases h with h | h | h | h
        · exact absurd (Or.inl h) h1
        · exact absurd (Or.inr h) h1
        · exact absurd (Or.inl h) h2
        · exact absurd (Or.inr h) h2
  · rfl

/-- C10 witness: the characterization applied to the concrete URI
"file:///etc/../x", whose decoded path contains "/../" and is
rejected. -/
theorem C10_portal_path_validation_witness :
    (∃ e, portal_screenshot_path "file:///etc/../x".toList = .error e) ↔
      ("/etc/../x".toList = [] ∨
       "/etc/../x".toList.head? ≠ some '/' ∨
       has_sub "/../".toList "/etc/../x".toList = true ∨
       has_sub "/./".toList "/etc/../x".toList = true) :=
  C10_portal_path_validation.1 "file:///etc/../x".toList
    "/etc/../x".toList (by decide)

/-- C3 counterexample: at a paused handler state the Wayland `on_process`
returns immediately — its stream-event trace is empty, not the
dequeue-then-requeue the claim requires, so the server's buffer pool is
not serviced during pause. -/
theorem C3_pause_requeue_counterexample :
    Wayland.on_process wl_paused_state = .ok ([], none) ∧
    ¬∃ img, Wayland.on_process wl_paused_state =
        .ok ([Wayland.PwEvent.dequeue, Wayland.PwEvent.queue], img) := by
  refine ⟨rfl, ?_⟩
  rintro ⟨img, h⟩
  rw [show Wayland.on_process wl_paused_state = .ok ([], none) from rfl] at h
  simp at h

/-- C3 amended: whenever the pause flag is set, `on_process` returns
before dequeuing anything — it performs no stream events at all and does
not invoke the frame callback. -/
theorem C3_pause_no_requeue :
    ∀ st : Wayland.WlState, st.paused = true →
      Wayland.on_process st = .ok ([], none) := by
  intro st h
  unfold Wayland.on_process
  rw [if_pos h]

/-- C3 witness: the amended theorem applied to the concrete paused
state. -/
theorem C3_pause_no_requeue_witness :
    Wayland.on_process wl_paused_state = .ok ([], none) :=
  C3_pause_no_requeue wl_paused_state rfl

/-- C4 counterexample: an X11 session entered at monotonic time 0 whose
first frame completes at 5 ms delivers that frame with duration 5.0, not
the 0.0 the claim requires. -/
theorem C4_first_frame_zero_counterexample :
    X11.loop_durations 0 [X11.LoopTick.frameAt 5] = [5] ∧ (5 : ℚ) ≠ 0 := by
  constructor
  · simp [X11.loop_durations]
  · norm_num

/-- C4 amended: the first frame of a session carries a duration equal to
the elapsed monotonic time from the session's start to that frame — the
X11 loop measures from `last_time` initialized at loop entry (empty-frame
iterations do not move it), and the Wayland handler measures from the
`last_frame_time_` stored by `start()`; the duration is therefore zero
exactly when no time has elapsed, and after a stop/start cycle the new
session's first duration is again measured from the new start time. -/
theorem C4_first_frame_duration :
    (∀ (t0 t1 : ℚ) (k : Nat) (rest : List X11.LoopTick),
      X11.loop_durations t0
          (List.replicate k X11.LoopTick.emptyTick ++
            X11.LoopTick.frameAt t1 :: rest) =
        (t1 - t0) :: X11.loop_durations t1 rest)
    ∧ (∀ (t0 t1 : ℚ) (ts : List ℚ),
        Wayland.session_durations t0 (t1 :: ts) =
          (t1 - t0) :: Wayland.session_durations t1 ts)
    ∧ (∀ t0 t1 : ℚ, (t1 - t0 = 0 ↔ t1 = t0)) := by
  refine ⟨?_, fun t0 t1 ts => rfl, fun t0 t1 => sub_eq_zero⟩
  intro t0 t1 k rest
  induction k with
  | zero => simp [X11.loop_durations]
  | succ m ih => simpa [X11.loop_durations] using ih

/-- C9 counterexample: `WindowsBackend::set_region` performs exactly one
plain store of the region — its event trace contains no acquisition of
the internal lock, so the update is not made under the internal lock the
claim requires (contrast `pause`, whose trace does take the lock). -/
theorem C9_set_region_counterexample :
    (Windows.set_region ⟨⟨0, 0, 0, 0⟩, false⟩ ⟨1, 2, 3, 4⟩).2 =
        [Windows.WinEvent.storeRegion] ∧
    Windows.WinEvent.lockAcquire ∉
        (Windows.set_region ⟨⟨0, 0, 0, 0⟩, false⟩ ⟨1, 2, 3, 4⟩).2 ∧
    Windows.WinEvent.lockAcquire ∈
        (Windows.pause ⟨⟨0, 0, 0, 0⟩, false⟩).2 := by
  refine ⟨rfl, by decide, by decide⟩

/-- C9 amended: `set_region` stores the new region with a single plain
assignment, acquiring no lock (unlike `pause`/`resume`, which bracket
their store in the internal lock); in the sequential state model the
store is still visible to the capture loop, whose next iteration's crop
is computed from the newly stored region. -/
theorem C9_set_region_no_lock :
    ∀ (st : Windows.WinState) (r : RectZ),
      (Windows.set_region st r).1.region = r ∧
      (Windows.set_region st r).2 = [Windows.WinEvent.storeRegion] ∧
      Windows.WinEvent.lockAcquire ∉ (Windows.set_region st r).2 ∧
      (∀ dw dh : Int, Windows.frame_crop (Windows.set_region st r).1 dw dh =
        Windows.frame_crop ⟨r, st.paused⟩ dw dh) ∧
      Windows.WinEvent.lockAcquire ∈ (Windows.pause st).2 := by
  intro st r
  refine ⟨rfl, rfl, ?_, fun dw dh => rfl, ?_⟩
  · intro h
    simp [Windows.set_region] at h
  · simp [Windows.pause]

/-- C1: every image the X11 `capture_frame` and the Wayland `on_process`
deliver has a pixel byte array of length exactly
`width * height * 4`, and the array is empty whenever either dimension
is zero. -/
theorem C1_delivered_buffer_size :
    (∀ (cw ch : Int) (g : Bool) (xe : Nat) (ximg : X11.XImg)
        (img : ImageData),
      X11.capture_frame cw ch g xe ximg = .ok img →
      img.data.length = img.width * img.height * 4 ∧
      ((img.width = 0 ∨ img.height = 0) → img.data = []))
    ∧ (∀ (st : Wayland.WlState) (evs : List Wayland.PwEvent)
        (img : ImageData),
      Wayland.on_process st = .ok (evs, some img) →
      img.data.length = img.width * img.height * 4 ∧
      ((img.width = 0 ∨ img.height = 0) → img.data = [])) := by
  have hempty : ImageData.empty.data.length =
      ImageData.empty.width * ImageData.empty.height * 4 ∧
      ((ImageData.empty.width = 0 ∨ ImageData.empty.height = 0) →
        ImageData.empty.data = []) := ⟨rfl, fun _ => rfl⟩
  constructor
  · intro cw ch g xe ximg img hc
    simp only [X11.capture_frame] at hc
    split at hc
    case isTrue =>
      cases hc
      exact hempty
    case isFalse hdim =>
      rcases hck : checked_rgba_size cw.toNat ch.toNat with e | n
      · rw [hck] at hc
        simp only at hc
        cases hc
      · rw [hck] at hc
        simp only at hc
        split at hc
        case isTrue =>
          cases hc
          exact hempty
        case isFalse =>
          cases hc
          refine ⟨x11_full_length ximg cw.toNat ch.toNat, fun h0 => ?_⟩
          rcases h0 with h0 | h0 <;> simp only at h0 <;> omega
  · intro st evs img hc
    simp only [Wayland.on_process] at hc
    split at hc
    case isTrue => simp at hc
    case isFalse =>
      split at hc
      case isTrue => simp at hc
      case isFalse =>
        split at hc
        case isTrue => simp at hc
        case isFalse =>
          split at hc
          case isTrue => simp at hc
          case isFalse hdim =>
            rcases hck : checked_rgba_size st.frame_width.toNat
                st.frame_height.toNat with e | n
            · rw [hck] at hc
              simp only at hc
              cases hc
            · rw [hck] at hc
              simp only at hc
              rcases hcrop : Wayland.apply_crop st.region
                  st.frame_width.toNat st.frame_height.toNat
                  (((List.range st.frame_height.toNat).map fun y =>
                      Wayland.wl_row st.fmt st.mem (y * st.stride)
                        st.frame_width.toNat).flatten) with e2 | cropped
              · rw [hcrop] at hc
                simp only at hc
                cases hc
              · rw [hcrop] at hc
                simp only at hc
                have hfull := wl_full_length st.fmt st.mem st.stride
                  st.frame_width.toNat st.frame_height.toNat
                have hspec := apply_crop_spec st.region st.frame_width.toNat
                  st.frame_height.toNat _ hfull cropped hcrop
                simp only [Except.ok.injEq, Prod.mk.injEq] at hc
                obtain ⟨-, hsnd⟩ := hc
                split at hsnd
                case isTrue =>
                  cases hsnd
                  exact hspec
                case isFalse => cases hsnd
/-- C1 witness: the X11 conjunct applied to a concrete 2×2 capture from
`ximg0`, whose hypothesis is discharged by evaluating `capture_frame`. -/
theorem C1_delivered_buffer_size_witness :
    img0.data.length = img0.width * img0.height * 4 ∧
    ((img0.width = 0 ∨ img0.height = 0) → img0.data = []) :=
  C1_delivered_buffer_size.1 2 2 true 0 ximg0 img0 (by rfl)

/-- C5 counterexample: on the Wayland streaming path a fully off-screen
region — (10,0,2×2) against a 4×4 frame, whose clamped intersection is
empty — does not yield an empty image and does not raise: `on_process`
skips the crop and delivers the full 4×4 frame. -/
theorem C5_offscreen_counterexample :
    Wayland.on_process wl_offscreen_state =
      .ok ([Wayland.PwEvent.dequeue, Wayland.PwEvent.queue],
           some ⟨List.replicate 64 0, 4, 4⟩) ∧
    (⟨List.replicate 64 0, 4, 4⟩ : ImageData).data ≠ [] :=
  ⟨rfl, by decide⟩

/-- C5 amended: the shared clamp block computes exactly the intersection
of the region with the source bounds (origin clamped to zero, extent
shrunk by any negative excess and clamped to the edge); the X11 backend's
capture area for a positive region is that clamped intersection and its
`capture_frame` returns the empty image when the intersection is empty;
the Wayland per-frame crop produces exactly the clamped intersection's
dimensions when that intersection is non-empty and differs from the full
frame, but when the clamped intersection is degenerate (fully off-screen
region) it delivers the full frame unchanged rather than an empty
image. -/
theorem C5_region_clamp :
    (∀ rx ry rw rh sw sh : Int,
      clamp_region rx ry rw rh sw sh =
        (max rx 0, max ry 0,
         min (rx + rw) sw - max rx 0, min (ry + rh) sh - max ry 0))
    ∧ (∀ (region : RectZ) (sw sh : Int),
        0 < region.width → 0 < region.height →
        X11.compute_capture_area region sw sh =
          (max region.x 0, max region.y 0,
           min (region.x + region.width) sw - max region.x 0,
           min (region.y + region.height) sh - max region.y 0))
    ∧ (∀ (cw ch : Int) (g : Bool) (xe : Nat) (ximg : X11.XImg),
        cw ≤ 0 ∨ ch ≤ 0 →
        X11.capture_frame cw ch g xe ximg = .ok ImageData.empty)
    ∧ (∀ (region : RectZ) (w h : Nat) (data : List Nat),
        0 < region.width → 0 < region.height →
        (min (region.x + region.width) w - max region.x 0 ≤ 0 ∨
         min (region.y + region.height) h - max region.y 0 ≤ 0) →
        Wayland.apply_crop region w h data = .ok ⟨data, w, h⟩)
    ∧ (∀ (region : RectZ) (w h : Nat) (data : List Nat) (img : ImageData),
        Wayland.apply_crop region w h data = .ok img →
        0 < region.width → 0 < region.height →
        0 < min (region.x + region.width) w - max region.x 0 →
        0 < min (region.y + region.height) h - max region.y 0 →
        (min (region.x + region.width) w - max region.x 0 ≠ (w : Int) ∨
         min (region.y + region.height) h - max region.y 0 ≠ (h : Int) ∨
         max region.x 0 ≠ 0 ∨ max region.y 0 ≠ 0) →
        img.width = (min (region.x + region.width) w -
            max region.x 0).toNat ∧
        img.height = (min (region.y + region.height) h -
            max region.y 0).toNat) := by
  refine ⟨clamp_region_eq, ?_, ?_, ?_, ?_⟩
  · intro region sw sh hw hh
    unfold X11.compute_capture_area
    rw [if_pos ⟨hw, hh⟩, clamp_region_eq]
  · intro cw ch g xe ximg hdim
    unfold X11.capture_frame
    rw [if_pos hdim]
  · intro region w h data hw hh hdeg
    unfold Wayland.apply_crop
    rw [if_pos ⟨hw, hh⟩, clamp_region_eq]
    simp only
    rw [if_neg (by
      rintro ⟨-, -, hrw, hrh, -⟩
      rcases hdeg with hd | hd <;> omega)]
  · intro region w h data img hc hw hh hrw hrh hproper
    unfold Wayland.apply_crop at hc
    rw [if_pos ⟨hw, hh⟩, clamp_region_eq] at hc
    simp only at hc
    rw [if_pos ⟨le_max_right region.x 0, le_max_right region.y 0,
        hrw, hrh, hproper⟩] at hc
    rcases hck : checked_rgba_size
        (min (region.x + region.width) w - max region.x 0).toNat
        (min (region.y + region.height) h - max region.y 0).toNat
      with e | n
    · rw [hck] at hc
      simp only at hc
      cases hc
    · rw [hck] at hc
      simp only at hc
      cases hc
      exact ⟨rfl, rfl⟩

/-- C5 witness: the capture-area conjunct at the concrete region
(-5,2,10×10) on an 8×8 screen (clamped to (0,2,5×6)), and the Wayland
degenerate-crop conjunct at the concrete fully off-screen region
(10,0,2×2) on a 4×4 frame. -/
theorem C5_region_clamp_witness :
    X11.compute_capture_area ⟨-5, 2, 10, 10⟩ 8 8 = (0, 2, 5, 6) ∧
    Wayland.apply_crop ⟨10, 0, 2, 2⟩ 4 4 (List.replicate 64 0) =
      .ok ⟨List.replicate 64 0, 4, 4⟩ := by
  constructor
  · have := C5_region_clamp.2.1 ⟨-5, 2, 10, 10⟩ 8 8 (by norm_num) (by norm_num)
    rw [this]
    norm_num
  · exact C5_region_clamp.2.2.2.1 ⟨10, 0, 2, 2⟩ 4 4 (List.replicate 64 0)
      (by norm_num) (by norm_num) (by norm_num)

end Frametap
